import Mathlib

/-!
Verification of the p-Bratu discretization (`pbratu.c`).

The program solves the p-Laplacian/Bratu equation on a structured 2D grid.
We shallowly embed the numerical core over the real numbers: the diffusivity
model `eta`/`deta`, the residual evaluator `FormFunctionLocal`, the initial
guess generator `FormInitialGuess`, and the Jacobian assembler
`FormJacobianRow`/`FormJacobianLocal` with its four `jtype` modes.

Grid fields are functions `x : ℤ → ℤ → ℝ`; `x j i` is the C array access
`x[j][i]`, i.e. the value of the unknown at grid point `(i, j)`.
-/

/-- The user context of `pbratu.c` (struct `AppCtx`): Bratu parameter
`lambda`, p-Laplacian exponent `p`, regularization `epsilon`, Jacobian
mode selector `jtype`. -/
structure AppCtx where
  lambda : ℝ
  p : ℝ
  epsilon : ℝ
  jtype : ℤ

/-- p-Laplacian diffusivity, from `eta` in the source:
`pow(PetscSqr(epsilon) + 0.5*(ux*ux + uy*uy), 0.5*(p-2))`. -/
noncomputable def eta (ctx : AppCtx) (ux uy : ℝ) : ℝ :=
  (ctx.epsilon ^ 2 + 0.5 * (ux * ux + uy * uy)) ^ (0.5 * (ctx.p - 2))

/-- Derivative of the diffusivity with respect to `gamma = (ux^2+uy^2)/2`,
from `deta` in the source: `0` when `p == 2`, otherwise
`pow(PetscSqr(epsilon) + 0.5*(ux*ux + uy*uy), 0.5*(p-4)) * 0.5 * (p-2)`. -/
noncomputable def deta (ctx : AppCtx) (ux uy : ℝ) : ℝ :=
  if ctx.p = 2 then 0
  else (ctx.epsilon ^ 2 + 0.5 * (ux * ux + uy * uy)) ^ (0.5 * (ctx.p - 4)) * 0.5 * (ctx.p - 2)

/-- The nine stencil values around an interior grid point `(i, j)`:
`uSW = x[j-1][i-1]`, `uS = x[j-1][i]`, `uSE = x[j-1][i+1]`,
`uW = x[j][i-1]`, `uC = x[j][i]`, `uE = x[j][i+1]`,
`uNW = x[j+1][i-1]`, `uN = x[j+1][i]`, `uNE = x[j+1][i+1]`. -/
structure Stencil where
  uSW : ℝ
  uS : ℝ
  uSE : ℝ
  uW : ℝ
  uC : ℝ
  uE : ℝ
  uNW : ℝ
  uN : ℝ
  uNE : ℝ

/-- The stencil of field values around grid point `(i, j)`. -/
def stencilOf (x : ℤ → ℤ → ℝ) (i j : ℤ) : Stencil :=
  ⟨x (j-1) (i-1), x (j-1) i, x (j-1) (i+1),
   x j (i-1), x j i, x j (i+1),
   x (j+1) (i-1), x (j+1) i, x (j+1) (i+1)⟩

/-- East-edge x-gradient, `ux_E = dhx*(x[j][i+1]-x[j][i])` with `dhx = 1/hx`. -/
noncomputable def ux_E (hx : ℝ) (s : Stencil) : ℝ := (1 / hx) * (s.uE - s.uC)

/-- East-edge y-gradient, `uy_E = 0.25*dhy*(x[j+1][i]+x[j+1][i+1]-x[j-1][i]-x[j-1][i+1])`. -/
noncomputable def uy_E (hy : ℝ) (s : Stencil) : ℝ :=
  0.25 * (1 / hy) * (s.uN + s.uNE - s.uS - s.uSE)

/-- West-edge x-gradient, `ux_W = dhx*(x[j][i]-x[j][i-1])`. -/
noncomputable def ux_W (hx : ℝ) (s : Stencil) : ℝ := (1 / hx) * (s.uC - s.uW)

/-- West-edge y-gradient, `uy_W = 0.25*dhy*(x[j+1][i-1]+x[j+1][i]-x[j-1][i-1]-x[j-1][i])`. -/
noncomputable def uy_W (hy : ℝ) (s : Stencil) : ℝ :=
  0.25 * (1 / hy) * (s.uNW + s.uN - s.uSW - s.uS)

/-- North-edge x-gradient, `ux_N = 0.25*dhx*(x[j][i+1]+x[j+1][i+1]-x[j][i-1]-x[j+1][i-1])`. -/
noncomputable def ux_N (hx : ℝ) (s : Stencil) : ℝ :=
  0.25 * (1 / hx) * (s.uE + s.uNE - s.uW - s.uNW)

/-- North-edge y-gradient, `uy_N = dhy*(x[j+1][i]-x[j][i])`. -/
noncomputable def uy_N (hy : ℝ) (s : Stencil) : ℝ := (1 / hy) * (s.uN - s.uC)

/-- South-edge x-gradient, `ux_S = 0.25*dhx*(x[j-1][i+1]+x[j][i+1]-x[j-1][i-1]-x[j][i-1])`. -/
noncomputable def ux_S (hx : ℝ) (s : Stencil) : ℝ :=
  0.25 * (1 / hx) * (s.uSE + s.uE - s.uSW - s.uW)

/-- South-edge y-gradient, `uy_S = dhy*(x[j][i]-x[j-1][i])`. -/
noncomputable def uy_S (hy : ℝ) (s : Stencil) : ℝ := (1 / hy) * (s.uC - s.uS)

/-- Diffusivity at the East edge, `e_E = eta(user, ux_E, uy_E)`. -/
noncomputable def e_E (ctx : AppCtx) (hx hy : ℝ) (s : Stencil) : ℝ :=
  eta ctx (ux_E hx s) (uy_E hy s)

/-- Diffusivity at the West edge. -/
noncomputable def e_W (ctx : AppCtx) (hx hy : ℝ) (s : Stencil) : ℝ :=
  eta ctx (ux_W hx s) (uy_W hy s)

/-- Diffusivity at the North edge. -/
noncomputable def e_N (ctx : AppCtx) (hx hy : ℝ) (s : Stencil) : ℝ :=
  eta ctx (ux_N hx s) (uy_N hy s)

/-- Diffusivity at the South edge. -/
noncomputable def e_S (ctx : AppCtx) (hx hy : ℝ) (s : Stencil) : ℝ :=
  eta ctx (ux_S hx s) (uy_S hy s)

/-- Diffusivity derivative at the East edge, `de_E = deta(user, ux_E, uy_E)`. -/
noncomputable def de_E (ctx : AppCtx) (hx hy : ℝ) (s : Stencil) : ℝ :=
  deta ctx (ux_E hx s) (uy_E hy s)

/-- Diffusivity derivative at the West edge. -/
noncomputable def de_W (ctx : AppCtx) (hx hy : ℝ) (s : Stencil) : ℝ :=
  deta ctx (ux_W hx s) (uy_W hy s)

/-- Diffusivity derivative at the North edge. -/
noncomputable def de_N (ctx : AppCtx) (hx hy : ℝ) (s : Stencil) : ℝ :=
  deta ctx (ux_N hx s) (uy_N hy s)

/-- Diffusivity derivative at the South edge. -/
noncomputable def de_S (ctx : AppCtx) (hx hy : ℝ) (s : Stencil) : ℝ :=
  deta ctx (ux_S hx s) (uy_S hy s)

/-- Skew product at the East edge, `skew_E = de_E*ux_E*uy_E`. -/
noncomputable def skew_E (ctx : AppCtx) (hx hy : ℝ) (s : Stencil) : ℝ :=
  de_E ctx hx hy s * ux_E hx s * uy_E hy s

/-- Skew product at the West edge, `skew_W = de_W*ux_W*uy_W`. -/
noncomputable def skew_W (ctx : AppCtx) (hx hy : ℝ) (s : Stencil) : ℝ :=
  de_W ctx hx hy s * ux_W hx s * uy_W hy s

/-- Skew product at the North edge, `skew_N = de_N*ux_N*uy_N`. -/
noncomputable def skew_N (ctx : AppCtx) (hx hy : ℝ) (s : Stencil) : ℝ :=
  de_N ctx hx hy s * ux_N hx s * uy_N hy s

/-- Skew product at the South edge, `skew_S = de_S*ux_S*uy_S`. -/
noncomputable def skew_S (ctx : AppCtx) (hx hy : ℝ) (s : Stencil) : ℝ :=
  de_S ctx hx hy s * ux_S hx s * uy_S hy s

/-- East-West cross term, `cross_EW = 0.25*(skew_E - skew_W)`. -/
noncomputable def cross_EW (ctx : AppCtx) (hx hy : ℝ) (s : Stencil) : ℝ :=
  0.25 * (skew_E ctx hx hy s - skew_W ctx hx hy s)

/-- North-South cross term, `cross_NS = 0.25*(skew_N - skew_S)`. -/
noncomputable def cross_NS (ctx : AppCtx) (hx hy : ℝ) (s : Stencil) : ℝ :=
  0.25 * (skew_N ctx hx hy s - skew_S ctx hx hy s)

/-- Newton directional coefficient at the East edge, `newt_E = e_E + de_E*ux_E^2`. -/
noncomputable def newt_E (ctx : AppCtx) (hx hy : ℝ) (s : Stencil) : ℝ :=
  e_E ctx hx hy s + de_E ctx hx hy s * (ux_E hx s) ^ 2

/-- Newton directional coefficient at the West edge, `newt_W = e_W + de_W*ux_W^2`. -/
noncomputable def newt_W (ctx : AppCtx) (hx hy : ℝ) (s : Stencil) : ℝ :=
  e_W ctx hx hy s + de_W ctx hx hy s * (ux_W hx s) ^ 2

/-- Newton directional coefficient at the North edge, `newt_N = e_N + de_N*uy_N^2`. -/
noncomputable def newt_N (ctx : AppCtx) (hx hy : ℝ) (s : Stencil) : ℝ :=
  e_N ctx hx hy s + de_N ctx hx hy s * (uy_N hy s) ^ 2

/-- Newton directional coefficient at the South edge, `newt_S = e_S + de_S*uy_S^2`. -/
noncomputable def newt_S (ctx : AppCtx) (hx hy : ℝ) (s : Stencil) : ℝ :=
  e_S ctx hx hy s + de_S ctx hx hy s * (uy_S hy s) ^ 2

/-- The boundary test used by every loop of the program:
`i == 0 || j == 0 || i == Mx-1 || j == My-1`. -/
def onBoundary (mx my : ℕ) (i j : ℤ) : Prop :=
  i = 0 ∨ j = 0 ∨ i = (mx : ℤ) - 1 ∨ j = (my : ℤ) - 1

instance (mx my : ℕ) (i j : ℤ) : Decidable (onBoundary mx my i j) := by
  unfold onBoundary
  infer_instance

/-- The interior residual of `FormFunctionLocal`:
`uxx + uyy - sc*exp(u)` with `uxx = -hy*(e_E*ux_E - e_W*ux_W)`,
`uyy = -hx*(e_N*uy_N - e_S*uy_S)` and `sc = hx*hy*lambda`. -/
noncomputable def interiorResidual (ctx : AppCtx) (hx hy : ℝ) (s : Stencil) : ℝ :=
  -hy * (e_E ctx hx hy s * ux_E hx s - e_W ctx hx hy s * ux_W hx s)
    + -hx * (e_N ctx hx hy s * uy_N hy s - e_S ctx hx hy s * uy_S hy s)
    - hx * hy * ctx.lambda * Real.exp s.uC

/-- The residual evaluator `FormFunctionLocal` at grid point `(i, j)`:
`f[j][i] = x[j][i]` on the boundary, otherwise the flux-form interior
residual with `hx = 1/(mx-1)` and `hy = 1/(my-1)`. -/
noncomputable def FormFunctionLocal (ctx : AppCtx) (mx my : ℕ) (x : ℤ → ℤ → ℝ)
    (i j : ℤ) : ℝ :=
  if onBoundary mx my i j then x j i
  else interiorResidual ctx (1 / ((mx : ℝ) - 1)) (1 / ((my : ℝ) - 1)) (stencilOf x i j)

/-- The initial guess `FormInitialGuess` at grid point `(i, j)`: zero on
the boundary, otherwise `(1 - xx*xx)*(1 - yy*yy)` with
`xx = 2*i/(Mx-1) - 1` and `yy = 2*j/(My-1) - 1`. -/
noncomputable def FormInitialGuess (mx my : ℕ) (i j : ℤ) : ℝ :=
  if onBoundary mx my i j then 0
  else
    (1 - (2 * (i : ℝ) / ((mx : ℝ) - 1) - 1) * (2 * (i : ℝ) / ((mx : ℝ) - 1) - 1)) *
      (1 - (2 * (j : ℝ) / ((my : ℝ) - 1) - 1) * (2 * (j : ℝ) / ((my : ℝ) - 1) - 1))

/-- Matrix stencil coordinate (`MatStencil` with `.j` and `.i`):
row/column address of a Jacobian entry by grid point. -/
structure MatStencil where
  j : ℤ
  i : ℤ

/-- Jacobian row for `jtype = 1` (Jacobian from `p = 2`): columns
S, W, center, E, N. -/
noncomputable def jac1Row (ctx : AppCtx) (hx hy : ℝ) (j i : ℤ) (s : Stencil) :
    List (MatStencil × ℝ) :=
  [ (⟨j-1, i⟩, -(hx/hy)),
    (⟨j, i-1⟩, -(hy/hx)),
    (⟨j, i⟩, 2.0 * (hy/hx + hx/hy) - hx * hy * ctx.lambda * Real.exp s.uC),
    (⟨j, i+1⟩, -(hy/hx)),
    (⟨j+1, i⟩, -(hx/hy)) ]

/-- Jacobian row for `jtype = 2` (Picard linearization): columns
S, W, center, E, N with frozen edge diffusivities. -/
noncomputable def jac2Row (ctx : AppCtx) (hx hy : ℝ) (j i : ℤ) (s : Stencil) :
    List (MatStencil × ℝ) :=
  [ (⟨j-1, i⟩, -(hx/hy) * e_S ctx hx hy s),
    (⟨j, i-1⟩, -(hy/hx) * e_W ctx hx hy s),
    (⟨j, i⟩, (e_W ctx hx hy s + e_E ctx hx hy s) * (hy/hx)
        + (e_S ctx hx hy s + e_N ctx hx hy s) * (hx/hy)
        - hx * hy * ctx.lambda * Real.exp s.uC),
    (⟨j, i+1⟩, -(hy/hx) * e_E ctx hx hy s),
    (⟨j+1, i⟩, -(hx/hy) * e_N ctx hx hy s) ]

/-- Jacobian row for `jtype = 3` (full Newton on a star stencil): columns
S, W, center, E, N with `newt` and lumped cross terms. -/
noncomputable def jac3Row (ctx : AppCtx) (hx hy : ℝ) (j i : ℤ) (s : Stencil) :
    List (MatStencil × ℝ) :=
  [ (⟨j-1, i⟩, -(hx/hy) * newt_S ctx hx hy s + cross_EW ctx hx hy s),
    (⟨j, i-1⟩, -(hy/hx) * newt_W ctx hx hy s + cross_NS ctx hx hy s),
    (⟨j, i⟩, (hx/hy) * (newt_N ctx hx hy s + newt_S ctx hx hy s)
        + (hy/hx) * (newt_E ctx hx hy s + newt_W ctx hx hy s)
        - hx * hy * ctx.lambda * Real.exp s.uC),
    (⟨j, i+1⟩, -(hy/hx) * newt_E ctx hx hy s - cross_NS ctx hx hy s),
    (⟨j+1, i⟩, -(hx/hy) * newt_N ctx hx hy s - cross_EW ctx hx hy s) ]

/-- Jacobian row for `jtype = 4` (full Newton on a box stencil): columns
SW, S, SE, W, center, E, NW, N, NE. -/
noncomputable def jac4Row (ctx : AppCtx) (hx hy : ℝ) (j i : ℤ) (s : Stencil) :
    List (MatStencil × ℝ) :=
  [ (⟨j-1, i-1⟩, -0.25 * (skew_S ctx hx hy s + skew_W ctx hx hy s)),
    (⟨j-1, i⟩, -(hx/hy) * newt_S ctx hx hy s + cross_EW ctx hx hy s),
    (⟨j-1, i+1⟩, 0.25 * (skew_S ctx hx hy s + skew_E ctx hx hy s)),
    (⟨j, i-1⟩, -(hy/hx) * newt_W ctx hx hy s + cross_NS ctx hx hy s),
    (⟨j, i⟩, (hx/hy) * (newt_N ctx hx hy s + newt_S ctx hx hy s)
        + (hy/hx) * (newt_E ctx hx hy s + newt_W ctx hx hy s)
        - hx * hy * ctx.lambda * Real.exp s.uC),
    (⟨j, i+1⟩, -(hy/hx) * newt_E ctx hx hy s - cross_NS ctx hx hy s),
    (⟨j+1, i-1⟩, 0.25 * (skew_N ctx hx hy s + skew_W ctx hx hy s)),
    (⟨j+1, i⟩, -(hx/hy) * newt_N ctx hx hy s - cross_EW ctx hx hy s),
    (⟨j+1, i+1⟩, -0.25 * (skew_N ctx hx hy s + skew_E ctx hx hy s)) ]

/-- One row of `FormJacobianLocal`: the list of `(column, value)` entries
emitted by `MatSetValuesStencil` for grid point `(i, j)`, or the
`SETERRQ1` unsupported-configuration error for an invalid `jtype`. -/
noncomputable def FormJacobianRow (ctx : AppCtx) (mx my : ℕ) (x : ℤ → ℤ → ℝ)
    (i j : ℤ) : Except String (List (MatStencil × ℝ)) :=
  let hx : ℝ := 1 / ((mx : ℝ) - 1)
  let hy : ℝ := 1 / ((my : ℝ) - 1)
  if onBoundary mx my i j then .ok [(⟨j, i⟩, (1 : ℝ))]
  else if ctx.jtype = 1 then .ok (jac1Row ctx hx hy j i (stencilOf x i j))
  else if ctx.jtype = 2 then .ok (jac2Row ctx hx hy j i (stencilOf x i j))
  else if ctx.jtype = 3 then .ok (jac3Row ctx hx hy j i (stencilOf x i j))
  else if ctx.jtype = 4 then .ok (jac4Row ctx hx hy j i (stencilOf x i j))
  else .error ("Jacobian type " ++ toString ctx.jtype ++ " not implemented")

/-- All grid points `(i, j)` in loop order: `j` outer from `0` to `my-1`,
`i` inner from `0` to `mx-1`. -/
def allPoints (mx my : ℕ) : List (ℤ × ℤ) :=
  (List.range my).flatMap fun (j : ℕ) => (List.range mx).map fun (i : ℕ) => ((i : ℤ), (j : ℤ))

/-- Run a fallible row computation over a list of points, aborting at the
first error (the `CHKERRQ` propagation of the assembly loop). -/
def collectRows (f : ℤ × ℤ → Except String (List (MatStencil × ℝ))) :
    List (ℤ × ℤ) → Except String (List (List (MatStencil × ℝ)))
  | [] => .ok []
  | p :: ps =>
    match f p with
    | .error e => .error e
    | .ok r =>
      match collectRows f ps with
      | .error e => .error e
      | .ok rs => .ok (r :: rs)

/-- The whole Jacobian assembly `FormJacobianLocal`: rows for every grid
point in loop order, aborting with the `SETERRQ1` error if any point
hits an unsupported `jtype`. -/
noncomputable def FormJacobianLocal (ctx : AppCtx) (mx my : ℕ) (x : ℤ → ℤ → ℝ) :
    Except String (List (List (MatStencil × ℝ))) :=
  collectRows (fun p => FormJacobianRow ctx mx my x p.1 p.2) (allPoints mx my)

/-! ## Shared lemmas -/

theorem eta_of_p_two (ctx : AppCtx) (hp : ctx.p = 2) (ux uy : ℝ) : eta ctx ux uy = 1 := by
  rw [eta, hp, show (0.5:ℝ) * ((2:ℝ) - 2) = 0 by norm_num, Real.rpow_zero]

theorem deta_of_p_two (ctx : AppCtx) (hp : ctx.p = 2) (ux uy : ℝ) : deta ctx ux uy = 0 := by
  rw [deta, if_pos hp]

theorem etaBase_pos (ctx : AppCtx) (hε : 0 < ctx.epsilon) (ux uy : ℝ) :
    0 < ctx.epsilon ^ 2 + 0.5 * (ux * ux + uy * uy) := by
  have h1 : 0 < ctx.epsilon ^ 2 := pow_pos hε 2
  nlinarith [mul_self_nonneg ux, mul_self_nonneg uy]

theorem eta_pos (ctx : AppCtx) (hε : 0 < ctx.epsilon) (ux uy : ℝ) : 0 < eta ctx ux uy :=
  Real.rpow_pos_of_pos (etaBase_pos ctx hε ux uy) _

theorem not_onBoundary (mx my : ℕ) (i j : ℤ)
    (hi0 : 0 < i) (hi1 : i < (mx:ℤ) - 1) (hj0 : 0 < j) (hj1 : j < (my:ℤ) - 1) :
    ¬ onBoundary mx my i j := by
  unfold onBoundary
  push_neg
  omega

theorem ux_E_stencilOf (hx : ℝ) (x : ℤ → ℤ → ℝ) (i j : ℤ) :
    ux_E hx (stencilOf x i j) = (x j (i+1) - x j i) / hx := by
  simp only [ux_E, stencilOf]
  ring

theorem uy_E_stencilOf (hy : ℝ) (x : ℤ → ℤ → ℝ) (i j : ℤ) :
    uy_E hy (stencilOf x i j)
      = 0.25 / hy * (x (j+1) i + x (j+1) (i+1) - x (j-1) i - x (j-1) (i+1)) := by
  simp only [uy_E, stencilOf]
  ring

theorem ux_W_stencilOf (hx : ℝ) (x : ℤ → ℤ → ℝ) (i j : ℤ) :
    ux_W hx (stencilOf x i j) = (x j i - x j (i-1)) / hx := by
  simp only [ux_W, stencilOf]
  ring

theorem uy_W_stencilOf (hy : ℝ) (x : ℤ → ℤ → ℝ) (i j : ℤ) :
    uy_W hy (stencilOf x i j)
      = 0.25 / hy * (x (j+1) (i-1) + x (j+1) i - x (j-1) (i-1) - x (j-1) i) := by
  simp only [uy_W, stencilOf]
  ring

theorem ux_N_stencilOf (hx : ℝ) (x : ℤ → ℤ → ℝ) (i j : ℤ) :
    ux_N hx (stencilOf x i j)
      = 0.25 / hx * (x j (i+1) + x (j+1) (i+1) - x j (i-1) - x (j+1) (i-1)) := by
  simp only [ux_N, stencilOf]
  ring

theorem uy_N_stencilOf (hy : ℝ) (x : ℤ → ℤ → ℝ) (i j : ℤ) :
    uy_N hy (stencilOf x i j) = (x (j+1) i - x j i) / hy := by
  simp only [uy_N, stencilOf]
  ring

theorem ux_S_stencilOf (hx : ℝ) (x : ℤ → ℤ → ℝ) (i j : ℤ) :
    ux_S hx (stencilOf x i j)
      = 0.25 / hx * (x (j-1) (i+1) + x j (i+1) - x (j-1) (i-1) - x j (i-1)) := by
  simp only [ux_S, stencilOf]
  ring

theorem uy_S_stencilOf (hy : ℝ) (x : ℤ → ℤ → ℝ) (i j : ℤ) :
    uy_S hy (stencilOf x i j) = (x j i - x (j-1) i) / hy := by
  simp only [uy_S, stencilOf]
  ring

theorem uC_stencilOf (x : ℤ → ℤ → ℝ) (i j : ℤ) : (stencilOf x i j).uC = x j i := rfl

/-! ## Claims -/

/-- C4: the diffusivity model returns
`eta = (epsilon^2 + (ux^2+uy^2)/2)^((p-2)/2)`, `deta = 0` when `p = 2` and
otherwise `(epsilon^2 + (ux^2+uy^2)/2)^((p-4)/2) * (p-2)/2`, and with
`epsilon > 0` the diffusivity `eta` is strictly positive everywhere. -/
theorem eta_deta_formulas (ctx : AppCtx) (hε : 0 < ctx.epsilon) (ux uy : ℝ) :
    eta ctx ux uy = (ctx.epsilon ^ 2 + (ux ^ 2 + uy ^ 2) / 2) ^ ((ctx.p - 2) / 2)
    ∧ (ctx.p = 2 → deta ctx ux uy = 0)
    ∧ (ctx.p ≠ 2 → deta ctx ux uy
        = (ctx.epsilon ^ 2 + (ux ^ 2 + uy ^ 2) / 2) ^ ((ctx.p - 4) / 2) * (ctx.p - 2) / 2)
    ∧ 0 < eta ctx ux uy := by
  refine ⟨?_, fun hp => deta_of_p_two ctx hp ux uy, fun hp => ?_, eta_pos ctx hε ux uy⟩
  · rw [eta,
      show ctx.epsilon ^ 2 + 0.5 * (ux * ux + uy * uy)
          = ctx.epsilon ^ 2 + (ux ^ 2 + uy ^ 2) / 2 by ring,
      show (0.5:ℝ) * (ctx.p - 2) = (ctx.p - 2) / 2 by ring]
  · rw [deta, if_neg hp,
      show ctx.epsilon ^ 2 + 0.5 * (ux * ux + uy * uy)
          = ctx.epsilon ^ 2 + (ux ^ 2 + uy ^ 2) / 2 by ring,
      show (0.5:ℝ) * (ctx.p - 4) = (ctx.p - 4) / 2 by ring]
    ring

/-- Witness for C4 at `lambda = 6`, `p = 3`, `epsilon = 1`, `ux = 1`, `uy = 2`. -/
theorem eta_deta_formulas_witness :
    (0:ℝ) < 1
    ∧ (eta ⟨6, 3, 1, 4⟩ 1 2 = ((1:ℝ) ^ 2 + ((1:ℝ) ^ 2 + (2:ℝ) ^ 2) / 2) ^ (((3:ℝ) - 2) / 2)
      ∧ ((3:ℝ) = 2 → deta ⟨6, 3, 1, 4⟩ 1 2 = 0)
      ∧ ((3:ℝ) ≠ 2 → deta ⟨6, 3, 1, 4⟩ 1 2
          = ((1:ℝ) ^ 2 + ((1:ℝ) ^ 2 + (2:ℝ) ^ 2) / 2) ^ (((3:ℝ) - 4) / 2) * ((3:ℝ) - 2) / 2)
      ∧ 0 < eta ⟨6, 3, 1, 4⟩ 1 2) :=
  ⟨by norm_num, eta_deta_formulas ⟨6, 3, 1, 4⟩ (by norm_num) 1 2⟩

/-- C8: at every boundary point the residual is the field value there, for
every field (in particular for arbitrary interior values). -/
theorem boundary_residual_eq_field (ctx : AppCtx) (mx my : ℕ) (x : ℤ → ℤ → ℝ)
    (i j : ℤ) (h : onBoundary mx my i j) :
    FormFunctionLocal ctx mx my x i j = x j i := by
  unfold FormFunctionLocal
  rw [if_pos h]

/-- Witness for C8 on the 4x4 grid at boundary point `(0, 2)` with a
non-trivial field. -/
theorem boundary_residual_eq_field_witness :
    FormFunctionLocal ⟨6, 2, 1e-5, 4⟩ 4 4 (fun a b => (a:ℝ) + 2 * (b:ℝ)) 0 2 = 2 :=
  (boundary_residual_eq_field ⟨6, 2, 1e-5, 4⟩ 4 4 (fun a b => (a:ℝ) + 2 * (b:ℝ)) 0 2
    (Or.inl rfl)).trans (by push_cast; ring)

/-- C5: when `p = 2`, `deta` vanishes for all gradient inputs, and at every
interior point the residual reduces algebraically to the standard 5-point
Laplacian `hy/hx*(2u - u_E - u_W) + hx/hy*(2u - u_N - u_S)` plus the
reaction term `-hx*hy*lambda*exp(u)`, for every field. -/
theorem p_two_reduces_to_laplacian (ctx : AppCtx) (hp : ctx.p = 2) :
    (∀ ux uy : ℝ, deta ctx ux uy = 0)
    ∧ ∀ (mx my : ℕ) (x : ℤ → ℤ → ℝ) (i j : ℤ) (hx hy : ℝ),
        hx = 1 / ((mx:ℝ) - 1) → hy = 1 / ((my:ℝ) - 1) → ¬ onBoundary mx my i j →
        FormFunctionLocal ctx mx my x i j
          = hy / hx * (2 * x j i - x j (i+1) - x j (i-1))
            + hx / hy * (2 * x j i - x (j+1) i - x (j-1) i)
            - hx * hy * ctx.lambda * Real.exp (x j i) := by
  refine ⟨fun ux uy => deta_of_p_two ctx hp ux uy, ?_⟩
  intro mx my x i j hx hy hhx hhy hint
  subst hhx
  subst hhy
  unfold FormFunctionLocal
  rw [if_neg hint]
  simp only [interiorResidual, e_E, e_W, e_N, e_S, eta_of_p_two ctx hp,
    ux_E, ux_W, uy_N, uy_S, stencilOf]
  ring

/-- Witness for C5: `p = 2`, the 4x4 grid, the constant-one field, interior
point `(1, 1)`. -/
theorem p_two_reduces_to_laplacian_witness :
    deta ⟨6, 2, 1, 4⟩ 3 5 = 0
    ∧ FormFunctionLocal ⟨6, 2, 1, 4⟩ 4 4 (fun _ _ => 1) 1 1 = -(2/3 * Real.exp 1) :=
  ⟨(p_two_reduces_to_laplacian ⟨6, 2, 1, 4⟩ rfl).1 3 5,
   ((p_two_reduces_to_laplacian ⟨6, 2, 1, 4⟩ rfl).2 4 4 (fun _ _ => 1) 1 1 _ _ rfl rfl
      (by decide)).trans (by norm_num)⟩

/-- Counterexample for C6: the 4x4 grid does not have a single interior
point — `(1,1)` and `(2,2)` are two distinct non-boundary grid points. -/
theorem single_interior_point_false :
    ¬ ∃! q : ℤ × ℤ, 0 ≤ q.1 ∧ q.1 ≤ 3 ∧ 0 ≤ q.2 ∧ q.2 ≤ 3 ∧ ¬ onBoundary 4 4 q.1 q.2 := by
  rintro ⟨q, -, huniq⟩
  have h1 : ((1, 1) : ℤ × ℤ) = q := huniq (1, 1) (by refine ⟨by norm_num, by norm_num, by norm_num, by norm_num, by decide⟩)
  have h2 : ((2, 2) : ℤ × ℤ) = q := huniq (2, 2) (by refine ⟨by norm_num, by norm_num, by norm_num, by norm_num, by decide⟩)
  rw [← h1] at h2
  exact absurd h2 (by decide)

/-- C6 (amended): on the 4x4 grid with `p = 2`, `epsilon = 1e-5`,
`lambda = 6`, `jtype = 1`, the residual of the all-zero field is `0` at
every boundary point and `-sc` with `sc = hx*hy*lambda` at each of the
four interior points. -/
theorem zero_field_residual_4x4 (i j : ℤ) :
    FormFunctionLocal ⟨6, 2, 1e-5, 1⟩ 4 4 (fun _ _ => 0) i j
      = if onBoundary 4 4 i j then 0
        else -(1 / ((4:ℝ) - 1) * (1 / ((4:ℝ) - 1)) * 6) := by
  unfold FormFunctionLocal
  by_cases h : onBoundary 4 4 i j
  · rw [if_pos h, if_pos h]
  · rw [if_neg h, if_neg h]
    simp only [interiorResidual, e_E, e_W, e_N, e_S, ux_E, uy_E, ux_W, uy_W,
      ux_N, uy_N, ux_S, uy_S, stencilOf]
    norm_num [Real.exp_zero]

/-- C9: for any grid with `Mx, My >= 2` the initial guess is exactly `0`
at every boundary point, and at every interior point it equals
`(1-xx^2)*(1-yy^2)` with `xx = 2i/(Mx-1)-1`, `yy = 2j/(My-1)-1`, a value
that is strictly positive. -/
theorem initial_guess_spec (mx my : ℕ) (hmx : 2 ≤ mx) (hmy : 2 ≤ my) (i j : ℤ) :
    (onBoundary mx my i j → FormInitialGuess mx my i j = 0)
    ∧ (0 < i → i < (mx:ℤ) - 1 → 0 < j → j < (my:ℤ) - 1 →
        FormInitialGuess mx my i j
          = (1 - (2 * (i:ℝ) / ((mx:ℝ) - 1) - 1) ^ 2) * (1 - (2 * (j:ℝ) / ((my:ℝ) - 1) - 1) ^ 2)
        ∧ 0 < FormInitialGuess mx my i j) := by
  constructor
  · intro h
    unfold FormInitialGuess
    rw [if_pos h]
  · intro hi0 hi1 hj0 hj1
    have hnb := not_onBoundary mx my i j hi0 hi1 hj0 hj1
    have hMx : (0:ℝ) < (mx:ℝ) - 1 := by
      have : (2:ℝ) ≤ (mx:ℝ) := by exact_mod_cast hmx
      linarith
    have hMy : (0:ℝ) < (my:ℝ) - 1 := by
      have : (2:ℝ) ≤ (my:ℝ) := by exact_mod_cast hmy
      linarith
    have hxx : |2 * (i:ℝ) / ((mx:ℝ) - 1) - 1| < 1 := by
      rw [abs_lt]
      have hipos : (0:ℝ) < (i:ℝ) := by exact_mod_cast hi0
      have hiub : (i:ℝ) < (mx:ℝ) - 1 := by
        have h1 : ((i:ℤ):ℝ) < (((mx:ℤ) - 1 : ℤ):ℝ) := by exact_mod_cast hi1
        push_cast at h1
        linarith
      constructor
      · have h1 : 0 < 2 * (i:ℝ) / ((mx:ℝ) - 1) := by positivity
        linarith
      · have h2 : 2 * (i:ℝ) / ((mx:ℝ) - 1) < 2 := by
          rw [div_lt_iff₀ hMx]
          linarith
        linarith
    have hyy : |2 * (j:ℝ) / ((my:ℝ) - 1) - 1| < 1 := by
      rw [abs_lt]
      have hjpos : (0:ℝ) < (j:ℝ) := by exact_mod_cast hj0
      have hjub : (j:ℝ) < (my:ℝ) - 1 := by
        have h1 : ((j:ℤ):ℝ) < (((my:ℤ) - 1 : ℤ):ℝ) := by exact_mod_cast hj1
        push_cast at h1
        linarith
      constructor
      · have h1 : 0 < 2 * (j:ℝ) / ((my:ℝ) - 1) := by positivity
        linarith
      · have h2 : 2 * (j:ℝ) / ((my:ℝ) - 1) < 2 := by
          rw [div_lt_iff₀ hMy]
          linarith
        linarith
    have hx2 : (2 * (i:ℝ) / ((mx:ℝ) - 1) - 1) ^ 2 < 1 := by
      rw [sq_lt_one_iff_abs_lt_one]
      exact hxx
    have hy2 : (2 * (j:ℝ) / ((my:ℝ) - 1) - 1) ^ 2 < 1 := by
      rw [sq_lt_one_iff_abs_lt_one]
      exact hyy
    unfold FormInitialGuess
    rw [if_neg hnb]
    constructor
    · ring
    · nlinarith [hx2, hy2]

/-- Witness for C9: the 4x4 grid, interior point `(1, 1)`, where the
initial guess is `(1-(2/3-1)^2)^2 = 64/81 > 0`. -/
theorem initial_guess_spec_witness :
    FormInitialGuess 4 4 1 1 = 64 / 81 ∧ 0 < FormInitialGuess 4 4 1 1 :=
  ⟨(((initial_guess_spec 4 4 (by norm_num) (by norm_num) 1 1).2 (by norm_num) (by decide)
      (by norm_num) (by decide)).1).trans (by norm_num),
   ((initial_guess_spec 4 4 (by norm_num) (by norm_num) 1 1).2 (by norm_num) (by decide)
      (by norm_num) (by decide)).2⟩

/-- C1: at every interior grid point the residual evaluator computes the
edge gradients (`ux_E = (u[i+1,j]-u[i,j])/hx`,
`uy_E = 0.25/hy*(u[i,j+1]+u[i+1,j+1]-u[i,j-1]-u[i+1,j-1])`, symmetric
formulas for W, N, S), evaluates `eta` at the four edges, and returns
`uxx + uyy - hx*hy*lambda*exp(u[i,j])` with
`uxx = -hy*(eta_E*ux_E - eta_W*ux_W)`, `uyy = -hx*(eta_N*uy_N - eta_S*uy_S)`,
where `hx = 1/(Mx-1)`, `hy = 1/(My-1)`. -/
theorem interior_residual_formula (ctx : AppCtx) (mx my : ℕ) (x : ℤ → ℤ → ℝ) (i j : ℤ)
    (hi0 : 0 < i) (hi1 : i < (mx:ℤ) - 1) (hj0 : 0 < j) (hj1 : j < (my:ℤ) - 1)
    (hx hy uxE uyE uxW uyW uxN uyN uxS uyS : ℝ)
    (hhx : hx = 1 / ((mx:ℝ) - 1)) (hhy : hy = 1 / ((my:ℝ) - 1))
    (huxE : uxE = (x j (i+1) - x j i) / hx)
    (huyE : uyE = 0.25 / hy * (x (j+1) i + x (j+1) (i+1) - x (j-1) i - x (j-1) (i+1)))
    (huxW : uxW = (x j i - x j (i-1)) / hx)
    (huyW : uyW = 0.25 / hy * (x (j+1) (i-1) + x (j+1) i - x (j-1) (i-1) - x (j-1) i))
    (huxN : uxN = 0.25 / hx * (x j (i+1) + x (j+1) (i+1) - x j (i-1) - x (j+1) (i-1)))
    (huyN : uyN = (x (j+1) i - x j i) / hy)
    (huxS : uxS = 0.25 / hx * (x (j-1) (i+1) + x j (i+1) - x (j-1) (i-1) - x j (i-1)))
    (huyS : uyS = (x j i - x (j-1) i) / hy) :
    FormFunctionLocal ctx mx my x i j
      = -hy * (eta ctx uxE uyE * uxE - eta ctx uxW uyW * uxW)
        + -hx * (eta ctx uxN uyN * uyN - eta ctx uxS uyS * uyS)
        - hx * hy * ctx.lambda * Real.exp (x j i) := by
  subst hhx hhy huxE huyE huxW huyW huxN huyN huxS huyS
  unfold FormFunctionLocal
  rw [if_neg (not_onBoundary mx my i j hi0 hi1 hj0 hj1)]
  simp only [interiorResidual, e_E, e_W, e_N, e_S]
  rw [ux_E_stencilOf, uy_E_stencilOf, ux_W_stencilOf, uy_W_stencilOf,
    ux_N_stencilOf, uy_N_stencilOf, ux_S_stencilOf, uy_S_stencilOf, uC_stencilOf]

/-- Witness for C1: the 4x4 grid, interior point `(1, 1)`, the zero field. -/
theorem interior_residual_formula_witness :
    FormFunctionLocal ⟨6, 3, 1, 4⟩ 4 4 (fun _ _ => 0) 1 1
      = -(1/3) * (eta ⟨6, 3, 1, 4⟩ 0 0 * 0 - eta ⟨6, 3, 1, 4⟩ 0 0 * 0)
        + -(1/3) * (eta ⟨6, 3, 1, 4⟩ 0 0 * 0 - eta ⟨6, 3, 1, 4⟩ 0 0 * 0)
        - 1/3 * (1/3) * 6 * Real.exp 0 :=
  interior_residual_formula ⟨6, 3, 1, 4⟩ 4 4 (fun _ _ => 0) 1 1
    (by norm_num) (by decide) (by norm_num) (by decide)
    (1/3) (1/3) 0 0 0 0 0 0 0 0
    (by norm_num) (by norm_num) (by norm_num) (by norm_num) (by norm_num) (by norm_num)
    (by norm_num) (by norm_num) (by norm_num) (by norm_num)

/-- C3: for `jtype = 3` at every interior point the assembler emits exactly
the 5 entries S, W, diagonal, E, N with
`S = -hx/hy*newt_S + cross_EW`, `W = -hy/hx*newt_W + cross_NS`,
`diag = hx/hy*(newt_N+newt_S) + hy/hx*(newt_E+newt_W) - hx*hy*lambda*exp(u)`,
`E = -hy/hx*newt_E - cross_NS`, `N = -hx/hy*newt_N - cross_EW`, where
`newt_* = eta + deta*(gradient-component)^2`, `skew_* = deta*ux*uy`,
`cross_EW = 0.25*(skew_E - skew_W)`, `cross_NS = 0.25*(skew_N - skew_S)`;
no diagonal-neighbor entries are emitted. -/
theorem jac3_row_formula (ctx : AppCtx) (mx my : ℕ) (x : ℤ → ℤ → ℝ) (i j : ℤ)
    (hj3 : ctx.jtype = 3)
    (hi0 : 0 < i) (hi1 : i < (mx:ℤ) - 1) (hj0 : 0 < j) (hj1 : j < (my:ℤ) - 1)
    (hx hy uxE uyE uxW uyW uxN uyN uxS uyS : ℝ)
    (newtE newtW newtN newtS skewE skewW skewN skewS crossEW crossNS : ℝ)
    (hhx : hx = 1 / ((mx:ℝ) - 1)) (hhy : hy = 1 / ((my:ℝ) - 1))
    (huxE : uxE = (x j (i+1) - x j i) / hx)
    (huyE : uyE = 0.25 / hy * (x (j+1) i + x (j+1) (i+1) - x (j-1) i - x (j-1) (i+1)))
    (huxW : uxW = (x j i - x j (i-1)) / hx)
    (huyW : uyW = 0.25 / hy * (x (j+1) (i-1) + x (j+1) i - x (j-1) (i-1) - x (j-1) i))
    (huxN : uxN = 0.25 / hx * (x j (i+1) + x (j+1) (i+1) - x j (i-1) - x (j+1) (i-1)))
    (huyN : uyN = (x (j+1) i - x j i) / hy)
    (huxS : uxS = 0.25 / hx * (x (j-1) (i+1) + x j (i+1) - x (j-1) (i-1) - x j (i-1)))
    (huyS : uyS = (x j i - x (j-1) i) / hy)
    (hnE : newtE = eta ctx uxE uyE + deta ctx uxE uyE * uxE ^ 2)
    (hnW : newtW = eta ctx uxW uyW + deta ctx uxW uyW * uxW ^ 2)
    (hnN : newtN = eta ctx uxN uyN + deta ctx uxN uyN * uyN ^ 2)
    (hnS : newtS = eta ctx uxS uyS + deta ctx uxS uyS * uyS ^ 2)
    (hsE : skewE = deta ctx uxE uyE * uxE * uyE)
    (hsW : skewW = deta ctx uxW uyW * uxW * uyW)
    (hsN : skewN = deta ctx uxN uyN * uxN * uyN)
    (hsS : skewS = deta ctx uxS uyS * uxS * uyS)
    (hcEW : crossEW = 0.25 * (skewE - skewW))
    (hcNS : crossNS = 0.25 * (skewN - skewS)) :
    FormJacobianRow ctx mx my x i j = .ok
      [ (⟨j-1, i⟩, -(hx/hy) * newtS + crossEW),
        (⟨j, i-1⟩, -(hy/hx) * newtW + crossNS),
        (⟨j, i⟩, hx/hy * (newtN + newtS) + hy/hx * (newtE + newtW)
            - hx * hy * ctx.lambda * Real.exp (x j i)),
        (⟨j, i+1⟩, -(hy/hx) * newtE - crossNS),
        (⟨j+1, i⟩, -(hx/hy) * newtN - crossEW) ] := by
  subst hhx hhy huxE huyE huxW huyW huxN huyN huxS huyS
  subst hnE hnW hnN hnS hsE hsW hsN hsS hcEW hcNS
  simp only [FormJacobianRow]
  rw [if_neg (not_onBoundary mx my i j hi0 hi1 hj0 hj1),
    if_neg (show ¬ctx.jtype = 1 by rw [hj3]; decide),
    if_neg (show ¬ctx.jtype = 2 by rw [hj3]; decide),
    if_pos hj3]
  refine congrArg Except.ok ?_
  simp only [jac3Row, newt_E, newt_W, newt_N, newt_S, cross_EW, cross_NS,
    skew_E, skew_W, skew_N, skew_S, e_E, e_W, e_N, e_S, de_E, de_W, de_N, de_S]
  rw [ux_E_stencilOf, uy_E_stencilOf, ux_W_stencilOf, uy_W_stencilOf,
    ux_N_stencilOf, uy_N_stencilOf, ux_S_stencilOf, uy_S_stencilOf, uC_stencilOf]

/-- Witness for C3: `jtype = 3`, the 4x4 grid, the zero field, interior
point `(1, 1)`. -/
theorem jac3_row_formula_witness :
    FormJacobianRow ⟨6, 3, 1, 3⟩ 4 4 (fun _ _ => 0) 1 1 = .ok
      [ (⟨0, 1⟩, -(1/3/(1/3)) * eta ⟨6, 3, 1, 3⟩ 0 0 + 0),
        (⟨1, 0⟩, -(1/3/(1/3)) * eta ⟨6, 3, 1, 3⟩ 0 0 + 0),
        (⟨1, 1⟩, 1/3/(1/3) * (eta ⟨6, 3, 1, 3⟩ 0 0 + eta ⟨6, 3, 1, 3⟩ 0 0)
            + 1/3/(1/3) * (eta ⟨6, 3, 1, 3⟩ 0 0 + eta ⟨6, 3, 1, 3⟩ 0 0)
            - 1/3 * (1/3) * 6 * Real.exp 0),
        (⟨1, 2⟩, -(1/3/(1/3)) * eta ⟨6, 3, 1, 3⟩ 0 0 - 0),
        (⟨2, 1⟩, -(1/3/(1/3)) * eta ⟨6, 3, 1, 3⟩ 0 0 - 0) ] :=
  jac3_row_formula ⟨6, 3, 1, 3⟩ 4 4 (fun _ _ => 0) 1 1 rfl
    (by norm_num) (by decide) (by norm_num) (by decide)
    (1/3) (1/3) 0 0 0 0 0 0 0 0
    (eta ⟨6, 3, 1, 3⟩ 0 0) (eta ⟨6, 3, 1, 3⟩ 0 0) (eta ⟨6, 3, 1, 3⟩ 0 0) (eta ⟨6, 3, 1, 3⟩ 0 0)
    0 0 0 0 0 0
    (by norm_num) (by norm_num) (by norm_num) (by norm_num) (by norm_num) (by norm_num)
    (by norm_num) (by norm_num) (by norm_num) (by norm_num)
    (by ring) (by ring) (by ring) (by ring)
    (by ring) (by ring) (by ring) (by ring)
    (by norm_num) (by norm_num)


theorem FormJacobianRow_boundary (ctx : AppCtx) (mx my : ℕ) (x : ℤ → ℤ → ℝ) (i j : ℤ)
    (h : onBoundary mx my i j) :
    FormJacobianRow ctx mx my x i j = .ok [(⟨j, i⟩, (1:ℝ))] := by
  simp only [FormJacobianRow]
  rw [if_pos h]

theorem FormJacobianRow_jtype_one (ctx : AppCtx) (h1 : ctx.jtype = 1) (mx my : ℕ)
    (x : ℤ → ℤ → ℝ) (i j : ℤ) (hnb : ¬ onBoundary mx my i j) :
    FormJacobianRow ctx mx my x i j
      = .ok (jac1Row ctx (1 / ((mx:ℝ) - 1)) (1 / ((my:ℝ) - 1)) j i (stencilOf x i j)) := by
  simp only [FormJacobianRow]
  rw [if_neg hnb, if_pos h1]

theorem FormJacobianRow_jtype_two (ctx : AppCtx) (h2 : ctx.jtype = 2) (mx my : ℕ)
    (x : ℤ → ℤ → ℝ) (i j : ℤ) (hnb : ¬ onBoundary mx my i j) :
    FormJacobianRow ctx mx my x i j
      = .ok (jac2Row ctx (1 / ((mx:ℝ) - 1)) (1 / ((my:ℝ) - 1)) j i (stencilOf x i j)) := by
  simp only [FormJacobianRow]
  rw [if_neg hnb, if_neg (show ¬ctx.jtype = 1 by rw [h2]; decide), if_pos h2]

theorem FormJacobianRow_jtype_three (ctx : AppCtx) (h3 : ctx.jtype = 3) (mx my : ℕ)
    (x : ℤ → ℤ → ℝ) (i j : ℤ) (hnb : ¬ onBoundary mx my i j) :
    FormJacobianRow ctx mx my x i j
      = .ok (jac3Row ctx (1 / ((mx:ℝ) - 1)) (1 / ((my:ℝ) - 1)) j i (stencilOf x i j)) := by
  simp only [FormJacobianRow]
  rw [if_neg hnb, if_neg (show ¬ctx.jtype = 1 by rw [h3]; decide),
    if_neg (show ¬ctx.jtype = 2 by rw [h3]; decide), if_pos h3]

theorem FormJacobianRow_jtype_four (ctx : AppCtx) (h4 : ctx.jtype = 4) (mx my : ℕ)
    (x : ℤ → ℤ → ℝ) (i j : ℤ) (hnb : ¬ onBoundary mx my i j) :
    FormJacobianRow ctx mx my x i j
      = .ok (jac4Row ctx (1 / ((mx:ℝ) - 1)) (1 / ((my:ℝ) - 1)) j i (stencilOf x i j)) := by
  simp only [FormJacobianRow]
  rw [if_neg hnb, if_neg (show ¬ctx.jtype = 1 by rw [h4]; decide),
    if_neg (show ¬ctx.jtype = 2 by rw [h4]; decide),
    if_neg (show ¬ctx.jtype = 3 by rw [h4]; decide), if_pos h4]

theorem FormJacobianRow_invalid (ctx : AppCtx) (mx my : ℕ) (x : ℤ → ℤ → ℝ) (i j : ℤ)
    (h1 : ctx.jtype ≠ 1) (h2 : ctx.jtype ≠ 2) (h3 : ctx.jtype ≠ 3) (h4 : ctx.jtype ≠ 4)
    (hnb : ¬ onBoundary mx my i j) :
    FormJacobianRow ctx mx my x i j
      = .error ("Jacobian type " ++ toString ctx.jtype ++ " not implemented") := by
  simp only [FormJacobianRow]
  rw [if_neg hnb, if_neg h1, if_neg h2, if_neg h3, if_neg h4]

theorem jac2Row_of_p_two (ctx : AppCtx) (hp : ctx.p = 2) (hx hy : ℝ) (j i : ℤ) (s : Stencil) :
    jac2Row ctx hx hy j i s = jac1Row ctx hx hy j i s := by
  simp only [jac2Row, jac1Row, e_E, e_S, e_W, e_N, eta_of_p_two ctx hp,
    List.cons.injEq, Prod.mk.injEq]
  and_intros <;> first | trivial | ring

theorem jac3Row_of_p_two (ctx : AppCtx) (hp : ctx.p = 2) (hx hy : ℝ) (j i : ℤ) (s : Stencil) :
    jac3Row ctx hx hy j i s = jac1Row ctx hx hy j i s := by
  simp only [jac3Row, jac1Row, newt_E, newt_W, newt_N, newt_S, cross_EW, cross_NS,
    skew_E, skew_W, skew_N, skew_S, e_E, e_S, e_W, e_N, de_E, de_S, de_W, de_N,
    eta_of_p_two ctx hp, deta_of_p_two ctx hp,
    List.cons.injEq, Prod.mk.injEq]
  and_intros <;> first | trivial | ring

theorem jac4Row_of_p_two (ctx : AppCtx) (hp : ctx.p = 2) (hx hy : ℝ) (j i : ℤ) (s : Stencil) :
    jac4Row ctx hx hy j i s =
      [ (⟨j-1, i-1⟩, 0),
        (⟨j-1, i⟩, -(hx/hy)),
        (⟨j-1, i+1⟩, 0),
        (⟨j, i-1⟩, -(hy/hx)),
        (⟨j, i⟩, 2.0 * (hy/hx + hx/hy) - hx * hy * ctx.lambda * Real.exp s.uC),
        (⟨j, i+1⟩, -(hy/hx)),
        (⟨j+1, i-1⟩, 0),
        (⟨j+1, i⟩, -(hx/hy)),
        (⟨j+1, i+1⟩, 0) ] := by
  simp only [jac4Row, newt_E, newt_W, newt_N, newt_S, cross_EW, cross_NS,
    skew_E, skew_W, skew_N, skew_S, e_E, e_S, e_W, e_N, de_E, de_S, de_W, de_N,
    eta_of_p_two ctx hp, deta_of_p_two ctx hp,
    List.cons.injEq, Prod.mk.injEq]
  and_intros <;> first | trivial | ring

/-- C10: when `p = 2` all four Jacobian modes produce identical entry
values at every row for every field: boundary rows are identical, modes
2 and 3 emit exactly mode 1's five entries, and mode 4 emits mode 1's
axis and center values together with four corner entries that are
exactly `0`. -/
theorem p_two_jacobian_modes_agree (ctx : AppCtx) (hp : ctx.p = 2) (mx my : ℕ)
    (x : ℤ → ℤ → ℝ) (i j : ℤ) (hx hy : ℝ)
    (hhx : hx = 1 / ((mx:ℝ) - 1)) (hhy : hy = 1 / ((my:ℝ) - 1)) :
    FormJacobianRow ⟨ctx.lambda, ctx.p, ctx.epsilon, 2⟩ mx my x i j
      = FormJacobianRow ⟨ctx.lambda, ctx.p, ctx.epsilon, 1⟩ mx my x i j
    ∧ FormJacobianRow ⟨ctx.lambda, ctx.p, ctx.epsilon, 3⟩ mx my x i j
      = FormJacobianRow ⟨ctx.lambda, ctx.p, ctx.epsilon, 1⟩ mx my x i j
    ∧ FormJacobianRow ⟨ctx.lambda, ctx.p, ctx.epsilon, 4⟩ mx my x i j
      = (if onBoundary mx my i j then
          FormJacobianRow ⟨ctx.lambda, ctx.p, ctx.epsilon, 1⟩ mx my x i j
        else .ok
          [ (⟨j-1, i-1⟩, 0),
            (⟨j-1, i⟩, -(hx/hy)),
            (⟨j-1, i+1⟩, 0),
            (⟨j, i-1⟩, -(hy/hx)),
            (⟨j, i⟩, 2.0 * (hy/hx + hx/hy) - hx * hy * ctx.lambda * Real.exp (x j i)),
            (⟨j, i+1⟩, -(hy/hx)),
            (⟨j+1, i-1⟩, 0),
            (⟨j+1, i⟩, -(hx/hy)),
            (⟨j+1, i+1⟩, 0) ]) := by
  subst hhx hhy
  refine ⟨?_, ?_, ?_⟩
  · by_cases h : onBoundary mx my i j
    · rw [FormJacobianRow_boundary _ _ _ _ _ _ h, FormJacobianRow_boundary _ _ _ _ _ _ h]
    · rw [FormJacobianRow_jtype_two _ rfl _ _ _ _ _ h,
        FormJacobianRow_jtype_one _ rfl _ _ _ _ _ h,
        jac2Row_of_p_two ⟨ctx.lambda, ctx.p, ctx.epsilon, 2⟩ hp]
      rfl
  · by_cases h : onBoundary mx my i j
    · rw [FormJacobianRow_boundary _ _ _ _ _ _ h, FormJacobianRow_boundary _ _ _ _ _ _ h]
    · rw [FormJacobianRow_jtype_three _ rfl _ _ _ _ _ h,
        FormJacobianRow_jtype_one _ rfl _ _ _ _ _ h,
        jac3Row_of_p_two ⟨ctx.lambda, ctx.p, ctx.epsilon, 3⟩ hp]
      rfl
  · by_cases h : onBoundary mx my i j
    · rw [if_pos h, FormJacobianRow_boundary _ _ _ _ _ _ h,
        FormJacobianRow_boundary _ _ _ _ _ _ h]
    · rw [if_neg h, FormJacobianRow_jtype_four _ rfl _ _ _ _ _ h,
        jac4Row_of_p_two ⟨ctx.lambda, ctx.p, ctx.epsilon, 4⟩ hp,
        uC_stencilOf]

/-- Witness for C10: `p = 2` on the 4x4 grid with the zero field at
interior point `(1, 1)`. -/
theorem p_two_jacobian_modes_agree_witness :
    FormJacobianRow ⟨6, 2, 1, 2⟩ 4 4 (fun _ _ => 0) 1 1
      = FormJacobianRow ⟨6, 2, 1, 1⟩ 4 4 (fun _ _ => 0) 1 1
    ∧ FormJacobianRow ⟨6, 2, 1, 3⟩ 4 4 (fun _ _ => 0) 1 1
      = FormJacobianRow ⟨6, 2, 1, 1⟩ 4 4 (fun _ _ => 0) 1 1
    ∧ FormJacobianRow ⟨6, 2, 1, 4⟩ 4 4 (fun _ _ => 0) 1 1
      = (if onBoundary 4 4 1 1 then
          FormJacobianRow ⟨6, 2, 1, 1⟩ 4 4 (fun _ _ => 0) 1 1
        else .ok
          [ (⟨0, 0⟩, 0),
            (⟨0, 1⟩, -(1/3/(1/3))),
            (⟨0, 2⟩, 0),
            (⟨1, 0⟩, -(1/3/(1/3))),
            (⟨1, 1⟩, 2.0 * (1/3/(1/3) + 1/3/(1/3)) - 1/3 * (1/3) * 6 * Real.exp 0),
            (⟨1, 2⟩, -(1/3/(1/3))),
            (⟨2, 0⟩, 0),
            (⟨2, 1⟩, -(1/3/(1/3))),
            (⟨2, 2⟩, 0) ]) :=
  p_two_jacobian_modes_agree ⟨6, 2, 1, 1⟩ rfl 4 4 (fun _ _ => 0) 1 1 (1/3) (1/3)
    (by norm_num) (by norm_num)

theorem collectRows_ok_mem (f : ℤ × ℤ → Except String (List (MatStencil × ℝ)))
    (l : List (ℤ × ℤ)) (v : List (List (MatStencil × ℝ)))
    (h : collectRows f l = .ok v) : ∀ p ∈ l, ∃ r, f p = .ok r := by
  induction l generalizing v with
  | nil => intro p hp; simp at hp
  | cons a t ih =>
    intro p hp
    rcases hfa : f a with e | r
    · rw [collectRows, hfa] at h
      simp at h
    · rcases hct : collectRows f t with e2 | rs
      · rw [collectRows, hfa, hct] at h
        simp at h
      · rcases List.mem_cons.mp hp with rfl | hp2
        · exact ⟨r, hfa⟩
        · exact ih rs hct p hp2

theorem collectRows_error_or_ok (f : ℤ × ℤ → Except String (List (MatStencil × ℝ)))
    (msg : String) (l : List (ℤ × ℤ))
    (hall : ∀ p ∈ l, f p = .error msg ∨ ∃ r, f p = .ok r) :
    collectRows f l = .error msg ∨ ∃ v, collectRows f l = .ok v := by
  induction l with
  | nil => exact Or.inr ⟨[], rfl⟩
  | cons a t ih =>
    rcases hall a (by simp) with ha | ⟨r, hr⟩
    · left
      rw [collectRows, ha]
    · rcases ih (fun p hp => hall p (by simp [hp])) with ht | ⟨v, hv⟩
      · left
        rw [collectRows, hr, ht]
      · right
        exact ⟨r :: v, by rw [collectRows, hr, hv]⟩

theorem mem_allPoints (mx my : ℕ) (a b : ℕ) (ha : a < mx) (hb : b < my) :
    ((a:ℤ), (b:ℤ)) ∈ allPoints mx my := by
  unfold allPoints
  exact List.mem_flatMap.mpr ⟨b, List.mem_range.mpr hb,
    List.mem_map.mpr ⟨a, List.mem_range.mpr ha, rfl⟩⟩

/-- C7 (amended): for every `jtype` outside `{1,2,3,4}` and every grid
with at least one interior point (`Mx, My >= 3`), the whole Jacobian
assembly fails with the unsupported-configuration error naming the
offending `jtype` value. -/
theorem invalid_jtype_fails (ctx : AppCtx) (mx my : ℕ) (x : ℤ → ℤ → ℝ)
    (h1 : ctx.jtype ≠ 1) (h2 : ctx.jtype ≠ 2) (h3 : ctx.jtype ≠ 3) (h4 : ctx.jtype ≠ 4)
    (hmx : 3 ≤ mx) (hmy : 3 ≤ my) :
    FormJacobianLocal ctx mx my x
      = .error ("Jacobian type " ++ toString ctx.jtype ++ " not implemented") := by
  unfold FormJacobianLocal
  have hall : ∀ p ∈ allPoints mx my,
      FormJacobianRow ctx mx my x p.1 p.2
        = .error ("Jacobian type " ++ toString ctx.jtype ++ " not implemented")
      ∨ ∃ r, FormJacobianRow ctx mx my x p.1 p.2 = .ok r := by
    intro p _
    by_cases hb : onBoundary mx my p.1 p.2
    · exact Or.inr ⟨_, FormJacobianRow_boundary ctx mx my x p.1 p.2 hb⟩
    · exact Or.inl (FormJacobianRow_invalid ctx mx my x p.1 p.2 h1 h2 h3 h4 hb)
  rcases collectRows_error_or_ok _ _ _ hall with h | ⟨v, hv⟩
  · exact h
  · exfalso
    have hmem : (((1:ℕ):ℤ), ((1:ℕ):ℤ)) ∈ allPoints mx my :=
      mem_allPoints mx my 1 1 (by omega) (by omega)
    rcases collectRows_ok_mem _ _ _ hv _ hmem with ⟨r, hr⟩
    rw [FormJacobianRow_invalid ctx mx my x _ _ h1 h2 h3 h4
      (not_onBoundary mx my _ _ (by norm_num) (by push_cast; omega) (by norm_num)
        (by push_cast; omega))] at hr
    simp at hr

/-- Witness for C7 (amended): `jtype = 7` on the 3x3 grid fails with the
error naming `7`. -/
theorem invalid_jtype_fails_witness :
    FormJacobianLocal ⟨6, 2, 1, 7⟩ 3 3 (fun _ _ => 0)
      = .error ("Jacobian type " ++ toString (7:ℤ) ++ " not implemented") :=
  invalid_jtype_fails ⟨6, 2, 1, 7⟩ 3 3 (fun _ _ => 0)
    (by decide) (by decide) (by decide) (by decide) (by norm_num) (by norm_num)

/-- Counterexample for C7: on the 2x2 grid every point is a boundary
point, so assembly with the invalid `jtype = 5` succeeds (it never
reaches the unsupported-configuration error), contradicting the claim
for all `Mx, My >= 2`. -/
theorem invalid_jtype_succeeds_on_2x2 :
    FormJacobianLocal ⟨6, 2, 1, 5⟩ 2 2 (fun _ _ => 0)
      = .ok [[(⟨0, 0⟩, 1)], [(⟨0, 1⟩, 1)], [(⟨1, 0⟩, 1)], [(⟨1, 1⟩, 1)]] := by
  have hl : allPoints 2 2 = [((0:ℤ), (0:ℤ)), (1, 0), (0, 1), (1, 1)] := by
    simp [allPoints, List.range_succ]
  have h00 := FormJacobianRow_boundary ⟨6, 2, 1, 5⟩ 2 2 (fun _ _ => 0) 0 0 (Or.inl rfl)
  have h10 := FormJacobianRow_boundary ⟨6, 2, 1, 5⟩ 2 2 (fun _ _ => 0) 1 0
    (Or.inr (Or.inl rfl))
  have h01 := FormJacobianRow_boundary ⟨6, 2, 1, 5⟩ 2 2 (fun _ _ => 0) 0 1 (Or.inl rfl)
  have h11 := FormJacobianRow_boundary ⟨6, 2, 1, 5⟩ 2 2 (fun _ _ => 0) 1 1
    (Or.inr (Or.inr (Or.inl (by decide))))
  unfold FormJacobianLocal
  rw [hl]
  simp only [collectRows, h00, h10, h01, h11]

theorem hasDerivAt_eta_mul (ctx : AppCtx) (hε : 0 < ctx.epsilon)
    (A B C : ℝ → ℝ) (da db dc t : ℝ)
    (hA : HasDerivAt A da t) (hB : HasDerivAt B db t) (hC : HasDerivAt C dc t) :
    HasDerivAt (fun u => eta ctx (A u) (B u) * C u)
      (deta ctx (A t) (B t) * (A t * da + B t * db) * C t
        + eta ctx (A t) (B t) * dc) t := by
  have hbase : HasDerivAt (fun u => ctx.epsilon ^ 2 + 0.5 * (A u * A u + B u * B u))
      (A t * da + B t * db) t := by
    have h1 := (((hA.mul hA).add (hB.mul hB)).const_mul (0.5:ℝ)).const_add (ctx.epsilon ^ 2)
    convert h1 using 1
    ring
  have hpos : 0 < ctx.epsilon ^ 2 + 0.5 * (A t * A t + B t * B t) :=
    etaBase_pos ctx hε (A t) (B t)
  by_cases hp : ctx.p = 2
  · have hfun : (fun u => eta ctx (A u) (B u) * C u) = fun u => C u := by
      funext u
      rw [eta_of_p_two ctx hp, one_mul]
    rw [hfun, deta_of_p_two ctx hp, eta_of_p_two ctx hp]
    simpa using hC
  · have hrp : HasDerivAt
        (fun u => (ctx.epsilon ^ 2 + 0.5 * (A u * A u + B u * B u)) ^ (0.5 * (ctx.p - 2)))
        ((A t * da + B t * db) * (0.5 * (ctx.p - 2))
          * (ctx.epsilon ^ 2 + 0.5 * (A t * A t + B t * B t)) ^ (0.5 * (ctx.p - 2) - 1)) t :=
      hbase.rpow_const (Or.inl (ne_of_gt hpos))
    have hmul := hrp.mul hC
    simp only [eta, deta, if_neg hp]
    convert hmul using 1
    rw [show (0.5 * (ctx.p - 2) - 1 : ℝ) = 0.5 * (ctx.p - 4) by ring]
    ring

/-- Directional derivative of the interior residual at gradient values
`ux*`, `uy*` and center value `uC`, along the direction stencil `d`. -/
noncomputable def dresidual (ctx : AppCtx) (hx hy : ℝ)
    (uxE uyE uxW uyW uxN uyN uxS uyS uC : ℝ) (d : Stencil) : ℝ :=
  -hy * ((deta ctx uxE uyE * (uxE * ux_E hx d + uyE * uy_E hy d) * uxE
          + eta ctx uxE uyE * ux_E hx d)
       - (deta ctx uxW uyW * (uxW * ux_W hx d + uyW * uy_W hy d) * uxW
          + eta ctx uxW uyW * ux_W hx d))
  + -hx * ((deta ctx uxN uyN * (uxN * ux_N hx d + uyN * uy_N hy d) * uyN
          + eta ctx uxN uyN * uy_N hy d)
       - (deta ctx uxS uyS * (uxS * ux_S hx d + uyS * uy_S hy d) * uyS
          + eta ctx uxS uyS * uy_S hy d))
  - hx * hy * ctx.lambda * (Real.exp uC * d.uC)

theorem hasDerivAt_interiorResidual (ctx : AppCtx) (hε : 0 < ctx.epsilon) (hx hy : ℝ)
    (S : ℝ → Stencil) (s d : Stencil) (t : ℝ)
    (hSW : HasDerivAt (fun u => (S u).uSW) d.uSW t)
    (hS0 : HasDerivAt (fun u => (S u).uS) d.uS t)
    (hSE : HasDerivAt (fun u => (S u).uSE) d.uSE t)
    (hW0 : HasDerivAt (fun u => (S u).uW) d.uW t)
    (hC0 : HasDerivAt (fun u => (S u).uC) d.uC t)
    (hE0 : HasDerivAt (fun u => (S u).uE) d.uE t)
    (hNW : HasDerivAt (fun u => (S u).uNW) d.uNW t)
    (hN0 : HasDerivAt (fun u => (S u).uN) d.uN t)
    (hNE : HasDerivAt (fun u => (S u).uNE) d.uNE t)
    (hst : S t = s) :
    HasDerivAt (fun u => interiorResidual ctx hx hy (S u))
      (dresidual ctx hx hy (ux_E hx s) (uy_E hy s) (ux_W hx s) (uy_W hy s)
        (ux_N hx s) (uy_N hy s) (ux_S hx s) (uy_S hy s) s.uC d) t := by
  subst hst
  have hAE : HasDerivAt (fun u => ux_E hx (S u)) (ux_E hx d) t := by
    simp only [ux_E]
    exact (hE0.sub hC0).const_mul (1/hx)
  have hBE : HasDerivAt (fun u => uy_E hy (S u)) (uy_E hy d) t := by
    simp only [uy_E]
    exact (((hN0.add hNE).sub hS0).sub hSE).const_mul (0.25 * (1/hy))
  have hAW : HasDerivAt (fun u => ux_W hx (S u)) (ux_W hx d) t := by
    simp only [ux_W]
    exact (hC0.sub hW0).const_mul (1/hx)
  have hBW : HasDerivAt (fun u => uy_W hy (S u)) (uy_W hy d) t := by
    simp only [uy_W]
    exact (((hNW.add hN0).sub hSW).sub hS0).const_mul (0.25 * (1/hy))
  have hAN : HasDerivAt (fun u => ux_N hx (S u)) (ux_N hx d) t := by
    simp only [ux_N]
    exact (((hE0.add hNE).sub hW0).sub hNW).const_mul (0.25 * (1/hx))
  have hBN : HasDerivAt (fun u => uy_N hy (S u)) (uy_N hy d) t := by
    simp only [uy_N]
    exact (hN0.sub hC0).const_mul (1/hy)
  have hAS : HasDerivAt (fun u => ux_S hx (S u)) (ux_S hx d) t := by
    simp only [ux_S]
    exact (((hSE.add hE0).sub hSW).sub hW0).const_mul (0.25 * (1/hx))
  have hBS : HasDerivAt (fun u => uy_S hy (S u)) (uy_S hy d) t := by
    simp only [uy_S]
    exact (hC0.sub hS0).const_mul (1/hy)
  have hTE := hasDerivAt_eta_mul ctx hε _ _ _ _ _ _ t hAE hBE hAE
  have hTW := hasDerivAt_eta_mul ctx hε _ _ _ _ _ _ t hAW hBW hAW
  have hTN := hasDerivAt_eta_mul ctx hε _ _ _ _ _ _ t hAN hBN hBN
  have hTS := hasDerivAt_eta_mul ctx hε _ _ _ _ _ _ t hAS hBS hBS
  have hexp := (hC0.exp).const_mul (hx * hy * ctx.lambda)
  have hfinal := (((hTE.sub hTW).const_mul (-hy)).add ((hTN.sub hTS).const_mul (-hx))).sub hexp
  simp only [interiorResidual, e_E, e_W, e_N, e_S, dresidual]
  convert hfinal using 1

theorem dresidual_dirSW (ctx : AppCtx) (hx hy : ℝ) (hhx : hx ≠ 0) (hhy : hy ≠ 0)
    (uxE uyE uxW uyW uxN uyN uxS uyS uC : ℝ) :
    dresidual ctx hx hy uxE uyE uxW uyW uxN uyN uxS uyS uC ⟨1, 0, 0, 0, 0, 0, 0, 0, 0⟩
      = -0.25 * (deta ctx uxS uyS * uxS * uyS + deta ctx uxW uyW * uxW * uyW) := by
  simp only [dresidual, ux_E, uy_E, ux_W, uy_W, ux_N, uy_N, ux_S, uy_S]
  field_simp
  ring

theorem dresidual_dirS (ctx : AppCtx) (hx hy : ℝ) (hhx : hx ≠ 0) (hhy : hy ≠ 0)
    (uxE uyE uxW uyW uxN uyN uxS uyS uC : ℝ) :
    dresidual ctx hx hy uxE uyE uxW uyW uxN uyN uxS uyS uC ⟨0, 1, 0, 0, 0, 0, 0, 0, 0⟩
      = -(hx/hy) * (eta ctx uxS uyS + deta ctx uxS uyS * uyS ^ 2)
        + 0.25 * (deta ctx uxE uyE * uxE * uyE - deta ctx uxW uyW * uxW * uyW) := by
  simp only [dresidual, ux_E, uy_E, ux_W, uy_W, ux_N, uy_N, ux_S, uy_S]
  field_simp
  ring

theorem dresidual_dirSE (ctx : AppCtx) (hx hy : ℝ) (hhx : hx ≠ 0) (hhy : hy ≠ 0)
    (uxE uyE uxW uyW uxN uyN uxS uyS uC : ℝ) :
    dresidual ctx hx hy uxE uyE uxW uyW uxN uyN uxS uyS uC ⟨0, 0, 1, 0, 0, 0, 0, 0, 0⟩
      = 0.25 * (deta ctx uxS uyS * uxS * uyS + deta ctx uxE uyE * uxE * uyE) := by
  simp only [dresidual, ux_E, uy_E, ux_W, uy_W, ux_N, uy_N, ux_S, uy_S]
  field_simp
  ring

theorem dresidual_dirW (ctx : AppCtx) (hx hy : ℝ) (hhx : hx ≠ 0) (hhy : hy ≠ 0)
    (uxE uyE uxW uyW uxN uyN uxS uyS uC : ℝ) :
    dresidual ctx hx hy uxE uyE uxW uyW uxN uyN uxS uyS uC ⟨0, 0, 0, 1, 0, 0, 0, 0, 0⟩
      = -(hy/hx) * (eta ctx uxW uyW + deta ctx uxW uyW * uxW ^ 2)
        + 0.25 * (deta ctx uxN uyN * uxN * uyN - deta ctx uxS uyS * uxS * uyS) := by
  simp only [dresidual, ux_E, uy_E, ux_W, uy_W, ux_N, uy_N, ux_S, uy_S]
  field_simp
  ring

theorem dresidual_dirC (ctx : AppCtx) (hx hy : ℝ) (hhx : hx ≠ 0) (hhy : hy ≠ 0)
    (uxE uyE uxW uyW uxN uyN uxS uyS uC : ℝ) :
    dresidual ctx hx hy uxE uyE uxW uyW uxN uyN uxS uyS uC ⟨0, 0, 0, 0, 1, 0, 0, 0, 0⟩
      = hx/hy * ((eta ctx uxN uyN + deta ctx uxN uyN * uyN ^ 2)
            + (eta ctx uxS uyS + deta ctx uxS uyS * uyS ^ 2))
        + hy/hx * ((eta ctx uxE uyE + deta ctx uxE uyE * uxE ^ 2)
            + (eta ctx uxW uyW + deta ctx uxW uyW * uxW ^ 2))
        - hx * hy * ctx.lambda * Real.exp uC := by
  simp only [dresidual, ux_E, uy_E, ux_W, uy_W, ux_N, uy_N, ux_S, uy_S]
  field_simp
  ring

theorem dresidual_dirE (ctx : AppCtx) (hx hy : ℝ) (hhx : hx ≠ 0) (hhy : hy ≠ 0)
    (uxE uyE uxW uyW uxN uyN uxS uyS uC : ℝ) :
    dresidual ctx hx hy uxE uyE uxW uyW uxN uyN uxS uyS uC ⟨0, 0, 0, 0, 0, 1, 0, 0, 0⟩
      = -(hy/hx) * (eta ctx uxE uyE + deta ctx uxE uyE * uxE ^ 2)
        - 0.25 * (deta ctx uxN uyN * uxN * uyN - deta ctx uxS uyS * uxS * uyS) := by
  simp only [dresidual, ux_E, uy_E, ux_W, uy_W, ux_N, uy_N, ux_S, uy_S]
  field_simp
  ring

theorem dresidual_dirNW (ctx : AppCtx) (hx hy : ℝ) (hhx : hx ≠ 0) (hhy : hy ≠ 0)
    (uxE uyE uxW uyW uxN uyN uxS uyS uC : ℝ) :
    dresidual ctx hx hy uxE uyE uxW uyW uxN uyN uxS uyS uC ⟨0, 0, 0, 0, 0, 0, 1, 0, 0⟩
      = 0.25 * (deta ctx uxN uyN * uxN * uyN + deta ctx uxW uyW * uxW * uyW) := by
  simp only [dresidual, ux_E, uy_E, ux_W, uy_W, ux_N, uy_N, ux_S, uy_S]
  field_simp
  ring

theorem dresidual_dirN (ctx : AppCtx) (hx hy : ℝ) (hhx : hx ≠ 0) (hhy : hy ≠ 0)
    (uxE uyE uxW uyW uxN uyN uxS uyS uC : ℝ) :
    dresidual ctx hx hy uxE uyE uxW uyW uxN uyN uxS uyS uC ⟨0, 0, 0, 0, 0, 0, 0, 1, 0⟩
      = -(hx/hy) * (eta ctx uxN uyN + deta ctx uxN uyN * uyN ^ 2)
        - 0.25 * (deta ctx uxE uyE * uxE * uyE - deta ctx uxW uyW * uxW * uyW) := by
  simp only [dresidual, ux_E, uy_E, ux_W, uy_W, ux_N, uy_N, ux_S, uy_S]
  field_simp
  ring

theorem dresidual_dirNE (ctx : AppCtx) (hx hy : ℝ) (hhx : hx ≠ 0) (hhy : hy ≠ 0)
    (uxE uyE uxW uyW uxN uyN uxS uyS uC : ℝ) :
    dresidual ctx hx hy uxE uyE uxW uyW uxN uyN uxS uyS uC ⟨0, 0, 0, 0, 0, 0, 0, 0, 1⟩
      = -0.25 * (deta ctx uxN uyN * uxN * uyN + deta ctx uxE uyE * uxE * uyE) := by
  simp only [dresidual, ux_E, uy_E, ux_W, uy_W, ux_N, uy_N, ux_S, uy_S]
  field_simp
  ring

/-- C2: for `jtype = 4` at every interior point the assembler emits the
9-entry row whose axis-direction entries use
`newt_* = eta + deta*(gradient-component)^2` exactly as in mode 3, whose
four diagonal-neighbor entries are the skew contributions
(`SW = -0.25*(skew_S+skew_W)`, `SE = 0.25*(skew_S+skew_E)`,
`NW = 0.25*(skew_N+skew_W)`, `NE = -0.25*(skew_N+skew_E)` with
`skew_* = deta*ux*uy`), and each of the nine entries is the exact partial
derivative of the flux-form interior residual with respect to the
corresponding stencil unknown. -/
theorem jac4_exact_newton (ctx : AppCtx) (mx my : ℕ) (x : ℤ → ℤ → ℝ) (i j : ℤ)
    (hj4 : ctx.jtype = 4) (hε : 0 < ctx.epsilon)
    (hi0 : 0 < i) (hi1 : i < (mx:ℤ) - 1) (hj0 : 0 < j) (hj1 : j < (my:ℤ) - 1)
    (hx hy uxE uyE uxW uyW uxN uyN uxS uyS : ℝ)
    (newtE newtW newtN newtS skewE skewW skewN skewS crossEW crossNS : ℝ)
    (hhx : hx = 1 / ((mx:ℝ) - 1)) (hhy : hy = 1 / ((my:ℝ) - 1))
    (huxE : uxE = (x j (i+1) - x j i) / hx)
    (huyE : uyE = 0.25 / hy * (x (j+1) i + x (j+1) (i+1) - x (j-1) i - x (j-1) (i+1)))
    (huxW : uxW = (x j i - x j (i-1)) / hx)
    (huyW : uyW = 0.25 / hy * (x (j+1) (i-1) + x (j+1) i - x (j-1) (i-1) - x (j-1) i))
    (huxN : uxN = 0.25 / hx * (x j (i+1) + x (j+1) (i+1) - x j (i-1) - x (j+1) (i-1)))
    (huyN : uyN = (x (j+1) i - x j i) / hy)
    (huxS : uxS = 0.25 / hx * (x (j-1) (i+1) + x j (i+1) - x (j-1) (i-1) - x j (i-1)))
    (huyS : uyS = (x j i - x (j-1) i) / hy)
    (hnE : newtE = eta ctx uxE uyE + deta ctx uxE uyE * uxE ^ 2)
    (hnW : newtW = eta ctx uxW uyW + deta ctx uxW uyW * uxW ^ 2)
    (hnN : newtN = eta ctx uxN uyN + deta ctx uxN uyN * uyN ^ 2)
    (hnS : newtS = eta ctx uxS uyS + deta ctx uxS uyS * uyS ^ 2)
    (hsE : skewE = deta ctx uxE uyE * uxE * uyE)
    (hsW : skewW = deta ctx uxW uyW * uxW * uyW)
    (hsN : skewN = deta ctx uxN uyN * uxN * uyN)
    (hsS : skewS = deta ctx uxS uyS * uxS * uyS)
    (hcEW : crossEW = 0.25 * (skewE - skewW))
    (hcNS : crossNS = 0.25 * (skewN - skewS)) :
    FormJacobianRow ctx mx my x i j = .ok
      [ (⟨j-1, i-1⟩, -0.25 * (skewS + skewW)),
        (⟨j-1, i⟩, -(hx/hy) * newtS + crossEW),
        (⟨j-1, i+1⟩, 0.25 * (skewS + skewE)),
        (⟨j, i-1⟩, -(hy/hx) * newtW + crossNS),
        (⟨j, i⟩, hx/hy * (newtN + newtS) + hy/hx * (newtE + newtW)
            - hx * hy * ctx.lambda * Real.exp (x j i)),
        (⟨j, i+1⟩, -(hy/hx) * newtE - crossNS),
        (⟨j+1, i-1⟩, 0.25 * (skewN + skewW)),
        (⟨j+1, i⟩, -(hx/hy) * newtN - crossEW),
        (⟨j+1, i+1⟩, -0.25 * (skewN + skewE)) ]
    ∧ HasDerivAt (fun u => interiorResidual ctx hx hy
        ⟨u, x (j-1) i, x (j-1) (i+1), x j (i-1), x j i, x j (i+1),
         x (j+1) (i-1), x (j+1) i, x (j+1) (i+1)⟩)
        (-0.25 * (skewS + skewW)) (x (j-1) (i-1))
    ∧ HasDerivAt (fun u => interiorResidual ctx hx hy
        ⟨x (j-1) (i-1), u, x (j-1) (i+1), x j (i-1), x j i, x j (i+1),
         x (j+1) (i-1), x (j+1) i, x (j+1) (i+1)⟩)
        (-(hx/hy) * newtS + crossEW) (x (j-1) i)
    ∧ HasDerivAt (fun u => interiorResidual ctx hx hy
        ⟨x (j-1) (i-1), x (j-1) i, u, x j (i-1), x j i, x j (i+1),
         x (j+1) (i-1), x (j+1) i, x (j+1) (i+1)⟩)
        (0.25 * (skewS + skewE)) (x (j-1) (i+1))
    ∧ HasDerivAt (fun u => interiorResidual ctx hx hy
        ⟨x (j-1) (i-1), x (j-1) i, x (j-1) (i+1), u, x j i, x j (i+1),
         x (j+1) (i-1), x (j+1) i, x (j+1) (i+1)⟩)
        (-(hy/hx) * newtW + crossNS) (x j (i-1))
    ∧ HasDerivAt (fun u => interiorResidual ctx hx hy
        ⟨x (j-1) (i-1), x (j-1) i, x (j-1) (i+1), x j (i-1), u, x j (i+1),
         x (j+1) (i-1), x (j+1) i, x (j+1) (i+1)⟩)
        (hx/hy * (newtN + newtS) + hy/hx * (newtE + newtW)
          - hx * hy * ctx.lambda * Real.exp (x j i)) (x j i)
    ∧ HasDerivAt (fun u => interiorResidual ctx hx hy
        ⟨x (j-1) (i-1), x (j-1) i, x (j-1) (i+1), x j (i-1), x j i, u,
         x (j+1) (i-1), x (j+1) i, x (j+1) (i+1)⟩)
        (-(hy/hx) * newtE - crossNS) (x j (i+1))
    ∧ HasDerivAt (fun u => interiorResidual ctx hx hy
        ⟨x (j-1) (i-1), x (j-1) i, x (j-1) (i+1), x j (i-1), x j i, x j (i+1),
         u, x (j+1) i, x (j+1) (i+1)⟩)
        (0.25 * (skewN + skewW)) (x (j+1) (i-1))
    ∧ HasDerivAt (fun u => interiorResidual ctx hx hy
        ⟨x (j-1) (i-1), x (j-1) i, x (j-1) (i+1), x j (i-1), x j i, x j (i+1),
         x (j+1) (i-1), u, x (j+1) (i+1)⟩)
        (-(hx/hy) * newtN - crossEW) (x (j+1) i)
    ∧ HasDerivAt (fun u => interiorResidual ctx hx hy
        ⟨x (j-1) (i-1), x (j-1) i, x (j-1) (i+1), x j (i-1), x j i, x j (i+1),
         x (j+1) (i-1), x (j+1) i, u⟩)
        (-0.25 * (skewN + skewE)) (x (j+1) (i+1)) := by
  have hnb := not_onBoundary mx my i j hi0 hi1 hj0 hj1
  have hxne : hx ≠ 0 := by
    rw [hhx]
    have h3 : (3:ℝ) ≤ (mx:ℝ) := by exact_mod_cast (show (3:ℤ) ≤ (mx:ℤ) by omega)
    exact one_div_ne_zero (by linarith)
  have hyne : hy ≠ 0 := by
    rw [hhy]
    have h3 : (3:ℝ) ≤ (my:ℝ) := by exact_mod_cast (show (3:ℤ) ≤ (my:ℤ) by omega)
    exact one_div_ne_zero (by linarith)
  subst huxE huyE huxW huyW huxN huyN huxS huyS
  subst hnE hnW hnN hnS hsE hsW hsN hsS hcEW hcNS
  refine ⟨?_, ?_, ?_, ?_, ?_, ?_, ?_, ?_, ?_, ?_⟩
  · rw [FormJacobianRow_jtype_four ctx hj4 mx my x i j hnb, ← hhx, ← hhy]
    refine congrArg Except.ok ?_
    simp only [jac4Row, newt_E, newt_W, newt_N, newt_S, cross_EW, cross_NS,
      skew_E, skew_W, skew_N, skew_S, e_E, e_W, e_N, e_S, de_E, de_W, de_N, de_S]
    rw [ux_E_stencilOf, uy_E_stencilOf, ux_W_stencilOf, uy_W_stencilOf,
      ux_N_stencilOf, uy_N_stencilOf, ux_S_stencilOf, uy_S_stencilOf, uC_stencilOf]
  · have h := hasDerivAt_interiorResidual ctx hε hx hy
      (fun u => ⟨u, x (j-1) i, x (j-1) (i+1), x j (i-1), x j i, x j (i+1),
        x (j+1) (i-1), x (j+1) i, x (j+1) (i+1)⟩)
      (stencilOf x i j) ⟨1, 0, 0, 0, 0, 0, 0, 0, 0⟩ (x (j-1) (i-1))
      (hasDerivAt_id _) (hasDerivAt_const _ _) (hasDerivAt_const _ _) (hasDerivAt_const _ _)
      (hasDerivAt_const _ _) (hasDerivAt_const _ _) (hasDerivAt_const _ _)
      (hasDerivAt_const _ _) (hasDerivAt_const _ _) rfl
    rw [dresidual_dirSW ctx hx hy hxne hyne, ux_S_stencilOf, uy_S_stencilOf,
      ux_W_stencilOf, uy_W_stencilOf] at h
    exact h
  · have h := hasDerivAt_interiorResidual ctx hε hx hy
      (fun u => ⟨x (j-1) (i-1), u, x (j-1) (i+1), x j (i-1), x j i, x j (i+1),
        x (j+1) (i-1), x (j+1) i, x (j+1) (i+1)⟩)
      (stencilOf x i j) ⟨0, 1, 0, 0, 0, 0, 0, 0, 0⟩ (x (j-1) i)
      (hasDerivAt_const _ _) (hasDerivAt_id _) (hasDerivAt_const _ _) (hasDerivAt_const _ _)
      (hasDerivAt_const _ _) (hasDerivAt_const _ _) (hasDerivAt_const _ _)
      (hasDerivAt_const _ _) (hasDerivAt_const _ _) rfl
    rw [dresidual_dirS ctx hx hy hxne hyne, ux_S_stencilOf, uy_S_stencilOf,
      ux_E_stencilOf, uy_E_stencilOf, ux_W_stencilOf, uy_W_stencilOf] at h
    exact h
  · have h := hasDerivAt_interiorResidual ctx hε hx hy
      (fun u => ⟨x (j-1) (i-1), x (j-1) i, u, x j (i-1), x j i, x j (i+1),
        x (j+1) (i-1), x (j+1) i, x (j+1) (i+1)⟩)
      (stencilOf x i j) ⟨0, 0, 1, 0, 0, 0, 0, 0, 0⟩ (x (j-1) (i+1))
      (hasDerivAt_const _ _) (hasDerivAt_const _ _) (hasDerivAt_id _) (hasDerivAt_const _ _)
      (hasDerivAt_const _ _) (hasDerivAt_const _ _) (hasDerivAt_const _ _)
      (hasDerivAt_const _ _) (hasDerivAt_const _ _) rfl
    rw [dresidual_dirSE ctx hx hy hxne hyne, ux_S_stencilOf, uy_S_stencilOf,
      ux_E_stencilOf, uy_E_stencilOf] at h
    exact h
  · have h := hasDerivAt_interiorResidual ctx hε hx hy
      (fun u => ⟨x (j-1) (i-1), x (j-1) i, x (j-1) (i+1), u, x j i, x j (i+1),
        x (j+1) (i-1), x (j+1) i, x (j+1) (i+1)⟩)
      (stencilOf x i j) ⟨0, 0, 0, 1, 0, 0, 0, 0, 0⟩ (x j (i-1))
      (hasDerivAt_const _ _) (hasDerivAt_const _ _) (hasDerivAt_const _ _) (hasDerivAt_id _)
      (hasDerivAt_const _ _) (hasDerivAt_const _ _) (hasDerivAt_const _ _)
      (hasDerivAt_const _ _) (hasDerivAt_const _ _) rfl
    rw [dresidual_dirW ctx hx hy hxne hyne, ux_W_stencilOf, uy_W_stencilOf,
      ux_N_stencilOf, uy_N_stencilOf, ux_S_stencilOf, uy_S_stencilOf] at h
    exact h
  · have h := hasDerivAt_interiorResidual ctx hε hx hy
      (fun u => ⟨x (j-1) (i-1), x (j-1) i, x (j-1) (i+1), x j (i-1), u, x j (i+1),
        x (j+1) (i-1), x (j+1) i, x (j+1) (i+1)⟩)
      (stencilOf x i j) ⟨0, 0, 0, 0, 1, 0, 0, 0, 0⟩ (x j i)
      (hasDerivAt_const _ _) (hasDerivAt_const _ _) (hasDerivAt_const _ _)
      (hasDerivAt_const _ _) (hasDerivAt_id _) (hasDerivAt_const _ _)
      (hasDerivAt_const _ _) (hasDerivAt_const _ _) (hasDerivAt_const _ _) rfl
    rw [dresidual_dirC ctx hx hy hxne hyne, ux_E_stencilOf, uy_E_stencilOf,
      ux_W_stencilOf, uy_W_stencilOf, ux_N_stencilOf, uy_N_stencilOf,
      ux_S_stencilOf, uy_S_stencilOf, uC_stencilOf] at h
    exact h
  · have h := hasDerivAt_interiorResidual ctx hε hx hy
      (fun u => ⟨x (j-1) (i-1), x (j-1) i, x (j-1) (i+1), x j (i-1), x j i, u,
        x (j+1) (i-1), x (j+1) i, x (j+1) (i+1)⟩)
      (stencilOf x i j) ⟨0, 0, 0, 0, 0, 1, 0, 0, 0⟩ (x j (i+1))
      (hasDerivAt_const _ _) (hasDerivAt_const _ _) (hasDerivAt_const _ _)
      (hasDerivAt_const _ _) (hasDerivAt_const _ _) (hasDerivAt_id _)
      (hasDerivAt_const _ _) (hasDerivAt_const _ _) (hasDerivAt_const _ _) rfl
    rw [dresidual_dirE ctx hx hy hxne hyne, ux_E_stencilOf, uy_E_stencilOf,
      ux_N_stencilOf, uy_N_stencilOf, ux_S_stencilOf, uy_S_stencilOf] at h
    exact h
  · have h := hasDerivAt_interiorResidual ctx hε hx hy
      (fun u => ⟨x (j-1) (i-1), x (j-1) i, x (j-1) (i+1), x j (i-1), x j i, x j (i+1),
        u, x (j+1) i, x (j+1) (i+1)⟩)
      (stencilOf x i j) ⟨0, 0, 0, 0, 0, 0, 1, 0, 0⟩ (x (j+1) (i-1))
      (hasDerivAt_const _ _) (hasDerivAt_const _ _) (hasDerivAt_const _ _)
      (hasDerivAt_const _ _) (hasDerivAt_const _ _) (hasDerivAt_const _ _)
      (hasDerivAt_id _) (hasDerivAt_const _ _) (hasDerivAt_const _ _) rfl
    rw [dresidual_dirNW ctx hx hy hxne hyne, ux_N_stencilOf, uy_N_stencilOf,
      ux_W_stencilOf, uy_W_stencilOf] at h
    exact h
  · have h := hasDerivAt_interiorResidual ctx hε hx hy
      (fun u => ⟨x (j-1) (i-1), x (j-1) i, x (j-1) (i+1), x j (i-1), x j i, x j (i+1),
        x (j+1) (i-1), u, x (j+1) (i+1)⟩)
      (stencilOf x i j) ⟨0, 0, 0, 0, 0, 0, 0, 1, 0⟩ (x (j+1) i)
      (hasDerivAt_const _ _) (hasDerivAt_const _ _) (hasDerivAt_const _ _)
      (hasDerivAt_const _ _) (hasDerivAt_const _ _) (hasDerivAt_const _ _)
      (hasDerivAt_const _ _) (hasDerivAt_id _) (hasDerivAt_const _ _) rfl
    rw [dresidual_dirN ctx hx hy hxne hyne, ux_N_stencilOf, uy_N_stencilOf,
      ux_E_stencilOf, uy_E_stencilOf, ux_W_stencilOf, uy_W_stencilOf] at h
    exact h
  · have h := hasDerivAt_interiorResidual ctx hε hx hy
      (fun u => ⟨x (j-1) (i-1), x (j-1) i, x (j-1) (i+1), x j (i-1), x j i, x j (i+1),
        x (j+1) (i-1), x (j+1) i, u⟩)
      (stencilOf x i j) ⟨0, 0, 0, 0, 0, 0, 0, 0, 1⟩ (x (j+1) (i+1))
      (hasDerivAt_const _ _) (hasDerivAt_const _ _) (hasDerivAt_const _ _)
      (hasDerivAt_const _ _) (hasDerivAt_const _ _) (hasDerivAt_const _ _)
      (hasDerivAt_const _ _) (hasDerivAt_const _ _) (hasDerivAt_id _) rfl
    rw [dresidual_dirNE ctx hx hy hxne hyne, ux_N_stencilOf, uy_N_stencilOf,
      ux_E_stencilOf, uy_E_stencilOf] at h
    exact h

/-- Witness for C2: `jtype = 4`, `p = 3`, `epsilon = 1`, the 4x4 grid,
the zero field, interior point `(1, 1)`. -/
theorem jac4_exact_newton_witness :
    FormJacobianRow ⟨6, 3, 1, 4⟩ 4 4 (fun _ _ => 0) 1 1 = .ok
      [ (⟨0, 0⟩, -0.25 * ((0:ℝ) + 0)),
        (⟨0, 1⟩, -(1/3/(1/3)) * eta ⟨6, 3, 1, 4⟩ 0 0 + 0),
        (⟨0, 2⟩, 0.25 * ((0:ℝ) + 0)),
        (⟨1, 0⟩, -(1/3/(1/3)) * eta ⟨6, 3, 1, 4⟩ 0 0 + 0),
        (⟨1, 1⟩, 1/3/(1/3) * (eta ⟨6, 3, 1, 4⟩ 0 0 + eta ⟨6, 3, 1, 4⟩ 0 0)
            + 1/3/(1/3) * (eta ⟨6, 3, 1, 4⟩ 0 0 + eta ⟨6, 3, 1, 4⟩ 0 0)
            - 1/3 * (1/3) * 6 * Real.exp 0),
        (⟨1, 2⟩, -(1/3/(1/3)) * eta ⟨6, 3, 1, 4⟩ 0 0 - 0),
        (⟨2, 0⟩, 0.25 * ((0:ℝ) + 0)),
        (⟨2, 1⟩, -(1/3/(1/3)) * eta ⟨6, 3, 1, 4⟩ 0 0 - 0),
        (⟨2, 2⟩, -0.25 * ((0:ℝ) + 0)) ] :=
  (jac4_exact_newton ⟨6, 3, 1, 4⟩ 4 4 (fun _ _ => 0) 1 1 rfl (by norm_num)
    (by norm_num) (by decide) (by norm_num) (by decide)
    (1/3) (1/3) 0 0 0 0 0 0 0 0
    (eta ⟨6, 3, 1, 4⟩ 0 0) (eta ⟨6, 3, 1, 4⟩ 0 0) (eta ⟨6, 3, 1, 4⟩ 0 0) (eta ⟨6, 3, 1, 4⟩ 0 0)
    0 0 0 0 0 0
    (by norm_num) (by norm_num) (by norm_num) (by norm_num) (by norm_num) (by norm_num)
    (by norm_num) (by norm_num) (by norm_num) (by norm_num)
    (by ring) (by ring) (by ring) (by ring)
    (by ring) (by ring) (by ring) (by ring)
    (by norm_num) (by norm_num)).1
